import Mathlib

/-!
The note repository of `src/note/repository.go`: a shallow embedding of the
data-access layer for notes and tags, that is the ten methods of
`RepositoryImpl` and the `Paginate` scope, over a relational store (`notes`,
`tags`, `note_tags`) and a handle of the ORM.

The ORM (`gorm.io/gorm`) and the database are libraries outside the repository.
Their part is modelled as far as the source uses it: the handle with its `Error`
field and its statement, the chain methods the source calls (with the merge of
the `LIMIT` clause that `Offset` and `Limit` perform), and the execution of the
statements they build on the three tables.  The methods of the
repository are transcribed call by call on top of it.

Go's `int` is a 64-bit two's complement integer: it is an `Int` here and every
arithmetic operation of the source is followed by `wrapInt`.  A Go `error` is an
`Option Err`, `none` being `nil`.
-/

namespace NoteRepo

/-! ## Machine integers and errors -/

/-- Reduction of an integer to the range of Go's 64-bit `int`. -/
def wrapInt (x : Int) : Int := (x + 2 ^ 63) % 2 ^ 64 - 2 ^ 63

/-- An error value of the storage layer (the driver's or the ORM's message). -/
abbrev Err := String

/-- The ORM's error of `First` on an empty result. -/
def ErrRecordNotFound : Err := "record not found"

/-- The ORM's error of `Delete` on a statement without conditions. -/
def ErrMissingWhereClause : Err := "WHERE conditions required"

/-- The driver's error of an insert that repeats a primary key. -/
def ErrDuplicatedKey : Err := "UNIQUE constraint failed: notes.id"

/-! ## Entities -/

/-- Modelled from the spec: the `Tag` entity, whose declaration is outside the
source file; its identifier is its name and it has no other attribute. -/
structure Tag where
  Name : String
deriving DecidableEq

/-- Modelled from the spec: the `Note` entity, whose declaration is outside the
source file: an identifier generated by storage (`note.ID` is a `uint` in
`UpdateNoteById`), the textual content, and the tags of the many-to-many
relationship (the field `Tags` that `GetNoteById` preloads). -/
structure Note where
  ID : Nat
  Content : String
  Tags : List Tag
deriving DecidableEq

/-- The zero value of `Note` (`var note Note`). -/
def Note.zero : Note := ⟨0, "", []⟩

/-! ## The relational store -/

/-- Modelled from the spec: a row of table `notes`: the primary key, the content
columns and the deletion marker of soft delete. -/
structure NoteRow where
  ID : Nat
  Content : String
  Deleted : Bool
deriving DecidableEq

/-- The entity read from a row, with the given tags. -/
def NoteRow.toNote (n : NoteRow) (tags : List Tag) : Note := ⟨n.ID, n.Content, tags⟩

/-- The statements the repository sends to the database. -/
inductive Op where
  | insertNote
  | saveNote
  | selectNotes
  | selectTags
  | deleteNotes
  | deleteTags
deriving DecidableEq

/-- The state of the database: the three tables of the schema, the outcomes the
driver will give to the next statements (`some e`: the statement fails with `e`
and changes nothing; an exhausted list: no failure), and the statements sent so
far. -/
structure Store where
  notes : List NoteRow
  tags : List Tag
  note_tags : List (Nat × String)
  faults : List (Option Err)
  issued : List Op
deriving DecidableEq

/-- The outcome the driver will give to the next statement. -/
def Store.peek (s : Store) : Option Err :=
  match s.faults with
  | [] => none
  | f :: _ => f

/-- Sending a statement: it is logged and the driver's outcome for it is
consumed. -/
def Store.send (s : Store) (op : Op) : Store :=
  { s with faults := s.faults.tail, issued := s.issued ++ [op] }

/-! ## The ORM handle and its statement -/

/-- The `JOIN` fragments of the source. -/
inductive Join where
  /-- The fragment `JOIN note_tags on note_tags.note_id = notes.id`. -/
  | noteTags
  /-- The fragment `JOIN tags on note_tags.tag_name = tags.name`. -/
  | tags
deriving DecidableEq

/-- The `WHERE` fragments of the source, with their argument. -/
inductive Cond where
  /-- The fragment `notes.id = ?`. -/
  | notesIdEq (v : Int)
  /-- The fragment `id = ?`. -/
  | idEq (v : Int)
  /-- The fragment `tags.name = ?`. -/
  | tagsNameEq (v : String)
  /-- The fragment `name = ?`. -/
  | nameEq (v : String)
  /-- The fragment `1=1`. -/
  | always
deriving DecidableEq

/-- The ORM's `clause.Limit`, the expression of the `LIMIT` clause: the limit,
when one was given, and the offset. -/
structure LimitClause where
  Limit : Option Int
  Offset : Int
deriving DecidableEq

/-- The ORM's `MergeClause` of `clause.Limit`, which `Offset` and `Limit` run
through `AddClause`: a statement without `LIMIT` clause takes the new
expression as it is; otherwise an earlier limit is kept when the new expression
has none (or 0), an earlier positive offset is kept when the new expression has
offset 0, and a negative new offset becomes 0. -/
def LimitClause.MergeClause (limit : LimitClause) (clause : Option LimitClause) : LimitClause :=
  match clause with
  | none => limit
  | some v =>
    { Limit :=
        if (limit.Limit = none ∨ limit.Limit = some 0) ∧ v.Limit ≠ none then v.Limit
        else limit.Limit
      Offset :=
        if limit.Offset = 0 ∧ 0 < v.Offset then v.Offset
        else if limit.Offset < 0 then 0
        else limit.Offset }

/-- The clauses a handle has collected, as far as this repository sets them;
`LIMIT` is the expression of the `LIMIT` clause, if the statement has one. -/
structure Statement where
  Unscoped : Bool
  Joins : List Join
  Conds : List Cond
  GroupByNotesID : Bool
  OrderByID : Bool
  PreloadTags : Bool
  LIMIT : Option LimitClause
deriving DecidableEq

/-- The offset the statement holds, if it has a `LIMIT` clause. -/
def Statement.Offset (st : Statement) : Option Int :=
  match st.LIMIT with
  | none => none
  | some c => some c.Offset

/-- The limit the statement holds, if it has a `LIMIT` clause with a limit. -/
def Statement.Limit (st : Statement) : Option Int :=
  match st.LIMIT with
  | none => none
  | some c => c.Limit

/-- The statement of a new session. -/
def Statement.empty : Statement := ⟨false, [], [], false, false, false, none⟩

/-- The ORM handle `*gorm.DB`: its `Error` field, its `clone` counter (1 for a
handle returned by `gorm.Open`, 2 for a session that keeps its clauses, 0 for
a handle in the middle of a chain) and its statement. -/
structure DB where
  Error : Option Err
  clone : Nat
  Statement : Statement
deriving DecidableEq

/-- A handle as `gorm.Open` returns it. -/
def DB.opened : DB := ⟨none, 1, Statement.empty⟩

/-- The ORM's `getInstance`, with which every method of the handle starts: a
handle with `clone > 0` is left alone and a new handle is returned, which
carries the receiver's `Error` and a new statement (`clone = 1`) or a copy of
the receiver's; a handle with `clone = 0` is returned itself. -/
def DB.getInstance (db : DB) : DB :=
  if 0 < db.clone then
    ⟨db.Error, 0, if db.clone = 1 then Statement.empty else db.Statement⟩
  else db

/-- The state of the receiver `*r.DB` after a chain of calls on it that ended in
the handle `tx`: a receiver with `clone = 0` is the very object the chain worked
on, any other receiver was not written. -/
def DB.after (r tx : DB) : DB := if r.clone = 0 then tx else r

/-- The ORM's `AddError`. -/
def DB.AddError (db : DB) (e : Err) : DB :=
  match db.Error with
  | none => { db with Error := some e }
  | some e0 => { db with Error := some (e0 ++ "; " ++ e) }

/-- The ORM's `Unscoped`. -/
def DB.Unscoped (db : DB) : DB :=
  let tx := db.getInstance
  { tx with Statement := { tx.Statement with Unscoped := true } }

/-- The ORM's `Joins`. -/
def DB.Joins (db : DB) (j : Join) : DB :=
  let tx := db.getInstance
  { tx with Statement := { tx.Statement with Joins := tx.Statement.Joins ++ [j] } }

/-- The ORM's `Where`. -/
def DB.Where (db : DB) (c : Cond) : DB :=
  let tx := db.getInstance
  { tx with Statement := { tx.Statement with Conds := tx.Statement.Conds ++ [c] } }

/-- The ORM's `Group("notes.id")`. -/
def DB.Group (db : DB) : DB :=
  let tx := db.getInstance
  { tx with Statement := { tx.Statement with GroupByNotesID := true } }

/-- The ORM's `Preload("Tags")`. -/
def DB.Preload (db : DB) : DB :=
  let tx := db.getInstance
  { tx with Statement := { tx.Statement with PreloadTags := true } }

/-- The ORM's `Offset`: `AddClause(clause.Limit{Offset: offset})`. -/
def DB.Offset (db : DB) (offset : Int) : DB :=
  let tx := db.getInstance
  { tx with Statement :=
      { tx.Statement with
        LIMIT := some ((⟨none, offset⟩ : LimitClause).MergeClause tx.Statement.LIMIT) } }

/-- The ORM's `Limit`: `AddClause(clause.Limit{Limit: &limit})`. -/
def DB.Limit (db : DB) (limit : Int) : DB :=
  let tx := db.getInstance
  { tx with Statement :=
      { tx.Statement with
        LIMIT := some ((⟨some limit, 0⟩ : LimitClause).MergeClause tx.Statement.LIMIT) } }

/-- The ORM's `Scopes`, for one scope. -/
def DB.Scopes (db : DB) (f : DB → DB) : DB := f db.getInstance

/-- The variable `page` of `Paginate` after `if page == 0 { page = 1 }`. -/
def Paginate.page (page : Int) : Int := if page = 0 then 1 else page

/-- The variable `pageSize` of `Paginate` after the `switch`: 100 when it was
above 100, 10 when it was 0 or less. -/
def Paginate.pageSize (pageSize : Int) : Int :=
  if pageSize > 100 then 100 else if pageSize ≤ 0 then 10 else pageSize

/-- The variable `offset := (page - 1) * pageSize` of `Paginate`, which it
gives to `db.Offset`. -/
def Paginate.offset (page pageSize : Int) : Int :=
  wrapInt (wrapInt (Paginate.page page - 1) * Paginate.pageSize pageSize)

/-- The scope `Paginate`, the generic pagination function: page 0 becomes 1, a
page size above 100 becomes 100 and one of 0 or less becomes 10, and it returns
`db.Offset(offset).Limit(pageSize)` with `offset := (page - 1) * pageSize`. -/
def Paginate (page pageSize : Int) : DB → DB := fun db =>
  (db.Offset (Paginate.offset page pageSize)).Limit (Paginate.pageSize pageSize)

/-! ## Executing a statement -/

/-- A row of the joined relation: a row of `notes`, and the rows of `note_tags`
and `tags` once these tables are joined. -/
structure Row where
  note : NoteRow
  noteTag : Option (Nat × String)
  tag : Option Tag
deriving DecidableEq

/-- One inner join applied to the rows collected so far. -/
def Join.apply (s : Store) : Join → List Row → List Row
  | Join.noteTags, rows =>
    rows.flatMap fun r =>
      (s.note_tags.filter fun j => j.1 = r.note.ID).map fun j => { r with noteTag := some j }
  | Join.tags, rows =>
    rows.flatMap fun r =>
      match r.noteTag with
      | none => []
      | some j => (s.tags.filter fun g => g.Name = j.2).map fun g => { r with tag := some g }

/-- A condition on a joined row; a condition on a column the row does not have
selects nothing. -/
def Cond.holds : Cond → Row → Bool
  | Cond.notesIdEq v, r => decide ((r.note.ID : Int) = v)
  | Cond.idEq v, r => decide ((r.note.ID : Int) = v)
  | Cond.tagsNameEq v, r =>
    match r.tag with
    | some g => decide (g.Name = v)
    | none => false
  | Cond.nameEq v, r =>
    match r.tag with
    | some g => decide (g.Name = v)
    | none => false
  | Cond.always, _ => true

/-- A condition on a row of `tags`. -/
def Cond.holdsTag : Cond → Tag → Bool
  | Cond.tagsNameEq v, g => decide (g.Name = v)
  | Cond.nameEq v, g => decide (g.Name = v)
  | Cond.always, _ => true
  | Cond.notesIdEq _, _ => false
  | Cond.idEq _, _ => false

/-- The clause `GROUP BY notes.id`: one row for each identifier, the first met. -/
def groupByID (rows : List NoteRow) : List NoteRow :=
  rows.foldl (fun acc n => if acc.any (fun m => decide (m.ID = n.ID)) then acc else acc ++ [n]) []

/-- The `LIMIT` clause as the ORM builds it: `OFFSET` is written when the
offset is positive, `LIMIT` when a limit was given and is not negative. -/
def window {α : Type} (st : Statement) (rows : List α) : List α :=
  match st.LIMIT with
  | none => rows
  | some c =>
    let rows := if 0 < c.Offset then rows.drop c.Offset.toNat else rows
    match c.Limit with
    | some l => if 0 ≤ l then rows.take l.toNat else rows
    | none => rows

/-- The rows of `notes` a `SELECT notes.*` with the clauses of the statement
returns: joins, conditions, the soft-delete filter unless `Unscoped`, grouping,
ordering by primary key, offset and limit. -/
def selectNotes (st : Statement) (s : Store) : List NoteRow :=
  let rows := st.Joins.foldl (fun rs j => j.apply s rs) (s.notes.map fun n => ⟨n, none, none⟩)
  let rows := rows.filter fun r => st.Conds.all fun c => c.holds r
  let rows := if st.Unscoped then rows else rows.filter fun r => !r.note.Deleted
  let notes := rows.map fun r => r.note
  let notes := if st.GroupByNotesID then groupByID notes else notes
  let notes := if st.OrderByID then notes.insertionSort (fun a b => a.ID ≤ b.ID) else notes
  window st notes

/-- The rows of `tags` a `SELECT *` with the clauses of the statement returns. -/
def selectTags (st : Statement) (s : Store) : List Tag :=
  window st (s.tags.filter fun g => st.Conds.all fun c => c.holdsTag g)

/-- The tags `Preload("Tags")` loads for a note: the rows of `tags` that the
join table associates with its identifier. -/
def preloadTags (s : Store) (n : NoteRow) : List Tag :=
  s.tags.filter fun g => decide ((n.ID, g.Name) ∈ s.note_tags)

/-- The entity a query hands back for a row. -/
def loadNote (st : Statement) (s : Store) (n : NoteRow) : Note :=
  n.toNote (if st.PreloadTags then preloadTags s n else [])

/-- An identifier the database generates: above every identifier of the table. -/
def freshID (s : Store) : Nat := (s.notes.map fun n => n.ID).foldr max 0 + 1

/-- The statement `INSERT ... ON CONFLICT DO NOTHING` of several rows. -/
def insertIgnore {α : Type} [DecidableEq α] (table rows : List α) : List α :=
  rows.foldl (fun t x => if x ∈ t then t else t ++ [x]) table

/-- What a finishing method of the handle gives: the handle it returns, the
database after it, and what it wrote to its destination. -/
structure Exec (α : Type) where
  tx : DB
  store : Store
  out : α

/-- The ORM's `Create(&note)`: nothing is sent when the handle already has an
error; otherwise the note is inserted (with a generated identifier when it has
none), its tags are inserted if missing and associated with it, all in one
transaction, and the identifier is written back. -/
def DB.Create (db : DB) (s : Store) (note : Note) : Exec Note :=
  let tx := db.getInstance
  match tx.Error with
  | some _ => ⟨tx, s, note⟩
  | none =>
    match s.peek with
    | some e => ⟨tx.AddError e, s.send Op.insertNote, note⟩
    | none =>
      if note.ID ≠ 0 ∧ note.ID ∈ s.notes.map (fun n => n.ID) then
        ⟨tx.AddError ErrDuplicatedKey, s.send Op.insertNote, note⟩
      else
        let id := if note.ID = 0 then freshID s else note.ID
        ⟨tx,
         { s.send Op.insertNote with
           notes := s.notes ++ [⟨id, note.Content, false⟩]
           tags := insertIgnore s.tags note.Tags
           note_tags := insertIgnore s.note_tags (note.Tags.map fun g => (id, g.Name)) },
         { note with ID := id }⟩

/-- The ORM's `Save(&note)`: a note without identifier is created; otherwise all
its columns are written to the row with its identifier, which is inserted when
there is none, and its tags are inserted if missing and associated with it. -/
def DB.Save (db : DB) (s : Store) (note : Note) : Exec Note :=
  let tx := db.getInstance
  if note.ID = 0 then tx.Create s note
  else
    match tx.Error with
    | some _ => ⟨tx, s, note⟩
    | none =>
      match s.peek with
      | some e => ⟨tx.AddError e, s.send Op.saveNote, note⟩
      | none =>
        ⟨tx,
         { s.send Op.saveNote with
           notes :=
             if note.ID ∈ s.notes.map (fun n => n.ID) then
               s.notes.map fun n => if n.ID = note.ID then ⟨note.ID, note.Content, false⟩ else n
             else s.notes ++ [⟨note.ID, note.Content, false⟩]
           tags := insertIgnore s.tags note.Tags
           note_tags := insertIgnore s.note_tags (note.Tags.map fun g => (note.ID, g.Name)) },
         note⟩

/-- The ORM's `Find(&notes)` into an empty slice. -/
def DB.FindNotes (db : DB) (s : Store) : Exec (List Note) :=
  let tx := db.getInstance
  match tx.Error with
  | some _ => ⟨tx, s, []⟩
  | none =>
    match s.peek with
    | some e => ⟨tx.AddError e, s.send Op.selectNotes, []⟩
    | none =>
      ⟨tx, s.send Op.selectNotes, (selectNotes tx.Statement s).map (loadNote tx.Statement s)⟩

/-- The ORM's `Find(&tags)` into an empty slice. -/
def DB.FindTags (db : DB) (s : Store) : Exec (List Tag) :=
  let tx := db.getInstance
  match tx.Error with
  | some _ => ⟨tx, s, []⟩
  | none =>
    match s.peek with
    | some e => ⟨tx.AddError e, s.send Op.selectTags, []⟩
    | none => ⟨tx, s.send Op.selectTags, selectTags tx.Statement s⟩

/-- The ORM's `First(&note)`, which is `db.Limit(1).Order(primary key)` and the
query: the first row in primary-key order; without a row the destination is
left as it was and the returned handle gets `ErrRecordNotFound`. -/
def DB.First (db : DB) (s : Store) (dest : Note) : Exec Note :=
  let tx0 := db.Limit 1
  let tx : DB := { tx0 with Statement := { tx0.Statement with OrderByID := true } }
  match tx.Error with
  | some _ => ⟨tx, s, dest⟩
  | none =>
    match s.peek with
    | some e => ⟨tx.AddError e, s.send Op.selectNotes, dest⟩
    | none =>
      match selectNotes tx.Statement s with
      | [] => ⟨tx.AddError ErrRecordNotFound, s.send Op.selectNotes, dest⟩
      | n :: _ => ⟨tx, s.send Op.selectNotes, loadNote tx.Statement s n⟩

/-- The ORM's `Delete(&Note{})`: refused without a condition; the rows that
satisfy the conditions are marked deleted, or removed when the statement is
`Unscoped`. -/
def DB.DeleteNotes (db : DB) (s : Store) : Exec Unit :=
  let tx := db.getInstance
  match tx.Error with
  | some _ => ⟨tx, s, ()⟩
  | none =>
    if tx.Statement.Conds.isEmpty then ⟨tx.AddError ErrMissingWhereClause, s, ()⟩
    else
      match s.peek with
      | some e => ⟨tx.AddError e, s.send Op.deleteNotes, ()⟩
      | none =>
        let hit : NoteRow → Bool := fun n => tx.Statement.Conds.all fun c => c.holds ⟨n, none, none⟩
        ⟨tx,
         { s.send Op.deleteNotes with
           notes :=
             if tx.Statement.Unscoped then s.notes.filter fun n => !hit n
             else s.notes.map fun n =>
               if hit n && !n.Deleted then { n with Deleted := true } else n },
         ()⟩

/-- The ORM's `Delete(&Tag{})`: refused without a condition; the rows that
satisfy the conditions are removed (a tag has no deletion marker). -/
def DB.DeleteTags (db : DB) (s : Store) : Exec Unit :=
  let tx := db.getInstance
  match tx.Error with
  | some _ => ⟨tx, s, ()⟩
  | none =>
    if tx.Statement.Conds.isEmpty then ⟨tx.AddError ErrMissingWhereClause, s, ()⟩
    else
      match s.peek with
      | some e => ⟨tx.AddError e, s.send Op.deleteTags, ()⟩
      | none =>
        ⟨tx,
         { s.send Op.deleteTags with
           tags := s.tags.filter fun g => !(tx.Statement.Conds.all fun c => c.holdsTag g) },
         ()⟩

/-! ## The repository -/

/-- The type `RepositoryImpl`, the default implementation of `Repository`. -/
structure RepositoryImpl where
  DB : DB
deriving DecidableEq

/-- The function `NewRepository`, the constructor of `RepositoryImpl`. -/
def NewRepository (db : DB) : RepositoryImpl := ⟨db⟩

/-- What a method of the repository gives: the value and the error it returns,
the injected handle and the database after the call. -/
structure Ret (α : Type) where
  val : α
  err : Option Err
  r : RepositoryImpl
  store : Store

/-- The method `CreateNote`: `r.DB.Create(&note); return note, r.DB.Error`. -/
def RepositoryImpl.CreateNote (r : RepositoryImpl) (s : Store) (note : Note) : Ret Note :=
  let x := r.DB.Create s note
  let r1 : RepositoryImpl := ⟨r.DB.after x.tx⟩
  ⟨x.out, r1.DB.Error, r1, x.store⟩

/-- The method `UpdateNoteById`: `r.DB.Save(&note); return r.DB.Error`. -/
def RepositoryImpl.UpdateNoteById (r : RepositoryImpl) (s : Store) (note : Note) : Ret Unit :=
  let x := r.DB.Save s note
  let r1 : RepositoryImpl := ⟨r.DB.after x.tx⟩
  ⟨(), r1.DB.Error, r1, x.store⟩

/-- The method `GetNotes`: `r.DB.Find(&notes); return notes, r.DB.Error`. -/
def RepositoryImpl.GetNotes (r : RepositoryImpl) (s : Store) : Ret (List Note) :=
  let x := r.DB.FindNotes s
  let r1 : RepositoryImpl := ⟨r.DB.after x.tx⟩
  ⟨x.out, r1.DB.Error, r1, x.store⟩

/-- The method `GetNotesWithPagination`:
`r.DB.Scopes(Paginate(page, pageSize)).Find(&notes); return notes, r.DB.Error`. -/
def RepositoryImpl.GetNotesWithPagination (r : RepositoryImpl) (s : Store)
    (page pageSize : Int) : Ret (List Note) :=
  let x := (r.DB.Scopes (Paginate page pageSize)).FindNotes s
  let r1 : RepositoryImpl := ⟨r.DB.after x.tx⟩
  ⟨x.out, r1.DB.Error, r1, x.store⟩

/-- The method `GetNotesByTag`: the two joins, `Where("tags.name = ?", tag)`,
`Group("notes.id")` and `Find(&notes)`; `page` and `pageSize` are not used. -/
def RepositoryImpl.GetNotesByTag (r : RepositoryImpl) (s : Store) (tag : String)
    (_page _pageSize : Int) : Ret (List Note) :=
  let x := ((((r.DB.Joins Join.noteTags).Joins Join.tags).Where (Cond.tagsNameEq tag)).Group).FindNotes s
  let r1 : RepositoryImpl := ⟨r.DB.after x.tx⟩
  ⟨x.out, r1.DB.Error, r1, x.store⟩

/-- The method `GetNoteById`:
`r.DB.Where("notes.id = ?", id).Preload("Tags").First(&note); return note, r.DB.Error`. -/
def RepositoryImpl.GetNoteById (r : RepositoryImpl) (s : Store) (id : Int) : Ret Note :=
  let x := ((r.DB.Where (Cond.notesIdEq id)).Preload).First s Note.zero
  let r1 : RepositoryImpl := ⟨r.DB.after x.tx⟩
  ⟨x.out, r1.DB.Error, r1, x.store⟩

/-- The method `DeleteNoteById`: `r.DB.Where("id = ?", id).Delete(&Note{}); return r.DB.Error`. -/
def RepositoryImpl.DeleteNoteById (r : RepositoryImpl) (s : Store) (id : Int) : Ret Unit :=
  let x := (r.DB.Where (Cond.idEq id)).DeleteNotes s
  let r1 : RepositoryImpl := ⟨r.DB.after x.tx⟩
  ⟨(), r1.DB.Error, r1, x.store⟩

/-- The method `DeleteAllNotes`: `r.DB.Unscoped().Where("1=1").Delete(&Note{})`, then
`r.DB.Unscoped().Where("1=1").Delete(&Tag{})`, then `return r.DB.Error`. -/
def RepositoryImpl.DeleteAllNotes (r : RepositoryImpl) (s : Store) : Ret Unit :=
  let x1 := ((r.DB.Unscoped).Where Cond.always).DeleteNotes s
  let r1 : RepositoryImpl := ⟨r.DB.after x1.tx⟩
  let x2 := ((r1.DB.Unscoped).Where Cond.always).DeleteTags x1.store
  let r2 : RepositoryImpl := ⟨r1.DB.after x2.tx⟩
  ⟨(), r2.DB.Error, r2, x2.store⟩

/-- The method `GetTagsByName`: `r.DB.Where("name = ?", tag).Find(&tags); return tags, r.DB.Error`. -/
def RepositoryImpl.GetTagsByName (r : RepositoryImpl) (s : Store) (tag : String) :
    Ret (List Tag) :=
  let x := (r.DB.Where (Cond.nameEq tag)).FindTags s
  let r1 : RepositoryImpl := ⟨r.DB.after x.tx⟩
  ⟨x.out, r1.DB.Error, r1, x.store⟩

/-- The method `GetAllTags`: `r.DB.Find(&tags); return tags, r.DB.Error`. -/
def RepositoryImpl.GetAllTags (r : RepositoryImpl) (s : Store) : Ret (List Tag) :=
  let x := r.DB.FindTags s
  let r1 : RepositoryImpl := ⟨r.DB.after x.tx⟩
  ⟨x.out, r1.DB.Error, r1, x.store⟩

/-! ## Demonstration values -/

/-- A database with two visible notes (1 and 3) and a soft-deleted one (2), the
tags `x` and `y`, and four rows of the join table. -/
def demoStore : Store :=
  ⟨[⟨1, "a", false⟩, ⟨2, "b", true⟩, ⟨3, "c", false⟩], [⟨"x"⟩, ⟨"y"⟩],
   [(1, "x"), (3, "x"), (3, "y"), (2, "x")], [], []⟩

/-- A repository on a handle as `gorm.Open` returns it. -/
def demoRepo : RepositoryImpl := NewRepository DB.opened

/-- The demonstration store on a database whose next statement fails. -/
def failingStore : Store := { demoStore with faults := [some "connection refused"] }

/-- The database after `DeleteAllNotes` on the demonstration store and the
creation of a note tagged `x`: one note, the tag `x`, and the four join rows of
the demonstration store, which `DeleteAllNotes` does not remove. -/
def staleStore : Store :=
  ((demoRepo.DeleteAllNotes demoStore).r.CreateNote (demoRepo.DeleteAllNotes demoStore).store
    ⟨0, "a", [⟨"x"⟩]⟩).store

/-! ## Pagination -/

theorem wrapInt_of_range (x : Int) (h1 : -2 ^ 63 ≤ x) (h2 : x < 2 ^ 63) : wrapInt x = x := by
  unfold wrapInt
  omega

theorem getInstance_clone (db : DB) : db.getInstance.clone = 0 := by
  unfold DB.getInstance
  split <;> simp_all

theorem getInstance_of_clone_zero (db : DB) (h : db.clone = 0) : db.getInstance = db := by
  simp [DB.getInstance, h]

theorem getInstance_of_clone_one (db : DB) (h : db.clone = 1) :
    db.getInstance = ⟨db.Error, 0, Statement.empty⟩ := by
  simp [DB.getInstance, h]

theorem getInstance_error (db : DB) : db.getInstance.Error = db.Error := by
  unfold DB.getInstance
  split <;> rfl

theorem Paginate_pageSize_range (pageSize : Int) :
    1 ≤ Paginate.pageSize pageSize ∧ Paginate.pageSize pageSize ≤ 100 := by
  unfold Paginate.pageSize
  split_ifs <;> omega

/-- The `LIMIT` clause after `db.Offset(o).Limit(l)` with a limit other than 0:
the limit is `l`; the offset is `o` when positive, an earlier positive offset
when `o` is 0, and 0 otherwise. -/
theorem Offset_Limit_LIMIT (db : DB) (o l : Int) (hl : l ≠ 0) :
    ((db.Offset o).Limit l).Statement.LIMIT =
      some ⟨some l,
        match db.getInstance.Statement.LIMIT with
        | none => if 0 < o then o else 0
        | some v => if 0 < o then o else if o = 0 ∧ 0 < v.Offset then v.Offset else 0⟩ := by
  have hc : (db.Offset o).clone = 0 := by simp [DB.Offset, getInstance_clone]
  simp only [DB.Limit, getInstance_of_clone_zero _ hc]
  simp only [DB.Offset]
  cases hv : db.getInstance.Statement.LIMIT with
  | none =>
    simp only [LimitClause.MergeClause, Option.some.injEq, LimitClause.mk.injEq]
    refine ⟨by simp [hl], ?_⟩
    by_cases h : 0 < o <;> simp [h]
  | some v =>
    simp only [LimitClause.MergeClause, Option.some.injEq, LimitClause.mk.injEq]
    refine ⟨by simp [hl], ?_⟩
    by_cases h : 0 < o
    · have h0 : o ≠ 0 := by omega
      have hn : ¬ o < 0 := by omega
      simp [h, h0, hn]
    · by_cases h0 : o = 0
      · by_cases hv0 : 0 < v.Offset <;> simp [h0, hv0]
      · have hn : o < 0 := by omega
        simp [h, h0, hn]

/-- The `LIMIT` clause of the handle `Paginate` returns: the limit is the
clamped page size; the offset is the computed one when positive, an earlier
positive offset when the computed one is 0, and 0 otherwise. -/
theorem Paginate_LIMIT (page pageSize : Int) (db : DB) :
    (Paginate page pageSize db).Statement.LIMIT =
      some ⟨some (Paginate.pageSize pageSize),
        match db.getInstance.Statement.LIMIT with
        | none => if 0 < Paginate.offset page pageSize then Paginate.offset page pageSize else 0
        | some v =>
          if 0 < Paginate.offset page pageSize then Paginate.offset page pageSize
          else if Paginate.offset page pageSize = 0 ∧ 0 < v.Offset then v.Offset else 0⟩ := by
  have h := (Paginate_pageSize_range pageSize).1
  exact Offset_Limit_LIMIT db _ _ (by omega)

/-- The computed offset inside the range of `int`: `(page - 1) * pageSize` for a
page other than 0. -/
theorem Paginate_offset_of_range (page pageSize : Int) (hp : page ≠ 0)
    (hlow : -2 ^ 63 ≤ (page - 1) * Paginate.pageSize pageSize)
    (hhigh : (page - 1) * Paginate.pageSize pageSize < 2 ^ 63) :
    Paginate.offset page pageSize = (page - 1) * Paginate.pageSize pageSize := by
  obtain ⟨h1, h2⟩ := Paginate_pageSize_range pageSize
  unfold Paginate.offset Paginate.page
  rw [if_neg hp]
  have hb : -2 ^ 63 ≤ page - 1 ∧ page - 1 < 2 ^ 63 := by
    constructor
    · by_cases hneg : page - 1 < 0
      · have : (page - 1) * Paginate.pageSize pageSize ≤ page - 1 := by nlinarith
        omega
      · omega
    · by_cases hneg : page - 1 < 0
      · omega
      · have : page - 1 ≤ (page - 1) * Paginate.pageSize pageSize := by nlinarith
        omega
  rw [wrapInt_of_range (page - 1) hb.1 hb.2, wrapInt_of_range _ hlow hhigh]

/-- C2: the pagination clamps. Page 0 gives the same scope as page 1; a page
size of 0 or less gives the same scope as page size 10; a page size above 100
gives the same scope as page size 100 (the same scope: the same offset and the
same limit on every handle). -/
theorem C2_paginate_clamps :
    (∀ pageSize : Int, Paginate 0 pageSize = Paginate 1 pageSize) ∧
    (∀ page pageSize : Int, pageSize ≤ 0 → Paginate page pageSize = Paginate page 10) ∧
    (∀ page pageSize : Int, 100 < pageSize → Paginate page pageSize = Paginate page 100) := by
  refine ⟨?_, ?_, ?_⟩
  · intro pageSize
    funext db
    simp [Paginate, Paginate.offset, Paginate.page]
  · intro page pageSize h
    funext db
    have h1 : ¬ pageSize > 100 := by omega
    simp [Paginate, Paginate.offset, Paginate.pageSize, h1, h]
  · intro page pageSize h
    funext db
    simp [Paginate, Paginate.offset, Paginate.pageSize, h]

/-- C2 at concrete arguments: page 0 with page size -5, and page 7 with page
size 1000. -/
theorem C2_paginate_clamps_witness :
    Paginate 0 (-5) = Paginate 1 10 ∧ Paginate 7 1000 = Paginate 7 100 :=
  ⟨(C2_paginate_clamps.1 (-5)).trans (C2_paginate_clamps.2.1 1 (-5) (by decide)),
   C2_paginate_clamps.2.2 7 1000 (by decide)⟩

/-- C9: only page 0 is normalised. `Paginate` calls `db.Offset(offset)` and then
`Limit(limit)`, where `limit` is the clamped page size (100 above 100, 10 for 0
or less), which lies in 1..100. For a negative page, when `(page-1)*limit` does
not underflow a 64-bit integer, the offset it gives to `db.Offset` is
`(page-1)*limit` and is negative, and a handle without `LIMIT` clause holds that
negative offset after the call of `Offset`. For a page of 0 or more, when
`(page-1)*limit` does not overflow, the offset is not negative and is a multiple
of `limit`. -/
theorem C9_paginate_negative_page (page pageSize : Int) :
    Paginate.pageSize pageSize =
      (if pageSize > 100 then 100 else if pageSize ≤ 0 then 10 else pageSize) ∧
    1 ≤ Paginate.pageSize pageSize ∧ Paginate.pageSize pageSize ≤ 100 ∧
    (∀ db : DB, Paginate page pageSize db =
      (db.Offset (Paginate.offset page pageSize)).Limit (Paginate.pageSize pageSize)) ∧
    (page < 0 → -2 ^ 63 ≤ (page - 1) * Paginate.pageSize pageSize →
      Paginate.offset page pageSize = (page - 1) * Paginate.pageSize pageSize ∧
      Paginate.offset page pageSize < 0 ∧
      ∀ db : DB, db.getInstance.Statement.LIMIT = none →
        (db.Offset (Paginate.offset page pageSize)).Statement.Offset =
          some ((page - 1) * Paginate.pageSize pageSize)) ∧
    (0 ≤ page → (page - 1) * Paginate.pageSize pageSize < 2 ^ 63 →
      0 ≤ Paginate.offset page pageSize ∧
      Paginate.pageSize pageSize ∣ Paginate.offset page pageSize) := by
  obtain ⟨hl1, hl2⟩ := Paginate_pageSize_range pageSize
  refine ⟨rfl, hl1, hl2, fun _ => rfl, ?_, ?_⟩
  · intro hp hlow
    have hneg : (page - 1) * Paginate.pageSize pageSize < 0 :=
      mul_neg_of_neg_of_pos (by omega) (by omega)
    have ho := Paginate_offset_of_range page pageSize (by omega) hlow (by omega)
    refine ⟨ho, by rw [ho]; exact hneg, ?_⟩
    intro db hdb
    simp [DB.Offset, Statement.Offset, hdb, LimitClause.MergeClause, ho]
  · intro hp hhigh
    by_cases hp0 : page = 0
    · have h0 : Paginate.offset page pageSize = 0 := by
        simp [Paginate.offset, Paginate.page, hp0, wrapInt]
      rw [h0]
      exact ⟨le_refl 0, dvd_zero _⟩
    · have hnn : 0 ≤ (page - 1) * Paginate.pageSize pageSize :=
        mul_nonneg (by omega) (by omega)
      have ho := Paginate_offset_of_range page pageSize hp0 (by omega) hhigh
      rw [ho]
      exact ⟨hnn, Dvd.intro_left (page - 1) rfl⟩

/-- C9 at concrete arguments: page -3 with page size 500 gives limit 100 and
gives -400 to `db.Offset`, which a new handle holds after that call; page 5 with
page size 20 gives offset 80. -/
theorem C9_paginate_negative_page_witness :
    Paginate.pageSize 500 = 100 ∧
    Paginate.offset (-3) 500 = -400 ∧
    (DB.opened.Offset (Paginate.offset (-3) 500)).Statement.Offset = some (-400) ∧
    (0 ≤ Paginate.offset 5 20 ∧ Paginate.pageSize 20 ∣ Paginate.offset 5 20) :=
  have h := C9_paginate_negative_page (-3) 500
  have hneg := h.2.2.2.2.1 (by decide) (by decide)
  ⟨by decide, by decide, by rw [hneg.2.2 DB.opened rfl]; decide,
   (C9_paginate_negative_page 5 20).2.2.2.2.2 (by decide) (by decide)⟩

/-- What the ORM does with the negative offset of a negative page: the call of
`Limit` that follows replaces it by 0, so the handle `Paginate` returns holds
offset 0 and the statement is sent without `OFFSET`. -/
theorem Paginate_negative_page_offset_dropped (page pageSize : Int) (db : DB)
    (hdb : db.getInstance.Statement.LIMIT = none) (hoff : Paginate.offset page pageSize < 0) :
    (Paginate page pageSize db).Statement.Offset = some 0 := by
  have hn : ¬ 0 < Paginate.offset page pageSize := by omega
  simp [Statement.Offset, Paginate_LIMIT, hdb, hn]

theorem window_map {α β : Type} (st : Statement) (f : α → β) (rows : List α) :
    window st (rows.map f) = (window st rows).map f := by
  unfold window
  cases st.LIMIT with
  | none => rfl
  | some c =>
    obtain ⟨l, o⟩ := c
    cases l <;> simp <;> split_ifs <;> simp [List.map_drop, List.map_take]

theorem window_nil {α : Type} (st : Statement) : window st ([] : List α) = [] := by
  unfold window
  cases st.LIMIT with
  | none => rfl
  | some c =>
    obtain ⟨l, o⟩ := c
    cases l <;> simp

theorem window_unset {α : Type} (u : Bool) (j : List Join) (c : List Cond) (g o p : Bool)
    (rows : List α) : window ⟨u, j, c, g, o, p, none⟩ rows = rows := rfl

theorem selectNotes_window (u : Bool) (j : List Join) (c : List Cond) (g o p : Bool)
    (l : Option LimitClause) (s : Store) :
    selectNotes ⟨u, j, c, g, o, p, l⟩ s =
      window ⟨u, j, c, g, o, p, l⟩ (selectNotes ⟨u, j, c, g, o, p, none⟩ s) := by
  simp [selectNotes, window_unset]

theorem window_congr {α : Type} (st1 st2 : Statement) (h : st1.LIMIT = st2.LIMIT)
    (rows : List α) : window st1 rows = window st2 rows := by
  unfold window
  rw [h]

/-- On a handle as `gorm.Open` returns it, the paginated listing is the window
of the statement `Paginate` builds, cut from the unpaginated listing. -/
theorem GetNotesWithPagination_eq_window (r : RepositoryImpl) (s : Store) (page pageSize : Int)
    (h : r.DB.clone = 1) :
    (r.GetNotesWithPagination s page pageSize).val =
      window (Paginate page pageSize r.DB).Statement (r.GetNotes s).val := by
  obtain ⟨⟨e, c, st⟩⟩ := r
  simp only at h
  subst h
  cases e with
  | some e0 =>
    simp [RepositoryImpl.GetNotesWithPagination, RepositoryImpl.GetNotes, DB.FindNotes,
      DB.Scopes, Paginate, DB.Offset, DB.Limit, DB.getInstance, window_nil]
  | none =>
    cases hp : s.peek with
    | some e1 =>
      simp [RepositoryImpl.GetNotesWithPagination, RepositoryImpl.GetNotes, DB.FindNotes,
        DB.Scopes, Paginate, DB.Offset, DB.Limit, DB.getInstance, window_nil, hp]
    | none =>
      simp [RepositoryImpl.GetNotesWithPagination, RepositoryImpl.GetNotes, DB.FindNotes,
        DB.Scopes, Paginate, DB.Offset, DB.Limit, DB.getInstance, hp, selectNotes,
        Statement.empty, loadNote, window_map, window_unset, Function.comp_def]

/-- C1, the claim as stated fails when `(page-1)*pageSize` overflows: page
`2^62+1` (a valid 64-bit `int`, at least 1) with page size 4 gives offset 0, not
`(page-1)*pageSize = 2^64`, and the call returns the first rows of the listing,
not the rows from position `2^64` on (there are none). -/
theorem C1_counterexample :
    (1 : Int) ≤ 2 ^ 62 + 1 ∧ (2 : Int) ^ 62 + 1 < 2 ^ 63 ∧
    (Paginate (2 ^ 62 + 1) 4 DB.opened).Statement.Offset = some 0 ∧
    (Paginate (2 ^ 62 + 1) 4 DB.opened).Statement.Offset ≠ some ((2 ^ 62 + 1 - 1) * 4) ∧
    (demoRepo.GetNotesWithPagination demoStore (2 ^ 62 + 1) 4).val =
      [⟨1, "a", []⟩, ⟨3, "c", []⟩] ∧
    (demoRepo.GetNotesWithPagination demoStore (2 ^ 62 + 1) 4).val ≠
      (((demoRepo.GetNotes demoStore).val.drop ((2 ^ 62 + 1 - 1) * 4 : Int).toNat).take 4) := by
  decide

/-- C1, amended: for every page of 1 or more and every page size in 1..100 such
that `(page-1)*pageSize` does not overflow a 64-bit integer, `Paginate` sets
offset `(page-1)*pageSize` and limit `pageSize` on every handle that has no
positive offset yet (and, from page 2 on, on every handle), and on a handle as
`gorm.Open` returns it `GetNotesWithPagination` returns at most `pageSize`
notes: those of the unpaginated listing from position `(page-1)*pageSize` on. -/
theorem C1_pagination_window (r : RepositoryImpl) (s : Store) (page pageSize : Int)
    (hr : r.DB.clone = 1) (hpage : 1 ≤ page) (hpos : 0 < pageSize) (hmax : pageSize ≤ 100)
    (hrange : (page - 1) * pageSize < 2 ^ 63) :
    (∀ db : DB,
      (1 < page ∨ ∀ c, db.getInstance.Statement.LIMIT = some c → c.Offset ≤ 0) →
      (Paginate page pageSize db).Statement.Offset = some ((page - 1) * pageSize) ∧
      (Paginate page pageSize db).Statement.Limit = some pageSize) ∧
    (r.GetNotesWithPagination s page pageSize).val =
      ((r.GetNotes s).val.drop ((page - 1) * pageSize).toNat).take pageSize.toNat ∧
    (r.GetNotesWithPagination s page pageSize).val.length ≤ pageSize.toNat := by
  have hps : Paginate.pageSize pageSize = pageSize := by
    have h1 : ¬ pageSize > 100 := by omega
    have h2 : ¬ pageSize ≤ 0 := by omega
    simp [Paginate.pageSize, h1, h2]
  have hnn : 0 ≤ (page - 1) * pageSize := mul_nonneg (by omega) (by omega)
  have hoff : Paginate.offset page pageSize = (page - 1) * pageSize := by
    have := Paginate_offset_of_range page pageSize (by omega) (by rw [hps]; omega)
      (by rw [hps]; exact hrange)
    rw [this, hps]
  have hst : ∀ db : DB,
      (1 < page ∨ ∀ c, db.getInstance.Statement.LIMIT = some c → c.Offset ≤ 0) →
      (Paginate page pageSize db).Statement.Offset = some ((page - 1) * pageSize) ∧
        (Paginate page pageSize db).Statement.Limit = some pageSize := by
    intro db hdb
    have hL := Paginate_LIMIT page pageSize db
    rw [hps, hoff] at hL
    simp only [Statement.Offset, Statement.Limit, hL, Option.some.injEq, and_true]
    cases hv : db.getInstance.Statement.LIMIT with
    | none =>
      simp only
      split_ifs <;> omega
    | some v =>
      simp only
      rcases hdb with h1 | h2
      · have : 0 < (page - 1) * pageSize := mul_pos (by omega) hpos
        simp [this]
      · have hv0 := h2 v hv
        split_ifs <;> omega
  have hval : (r.GetNotesWithPagination s page pageSize).val =
      ((r.GetNotes s).val.drop ((page - 1) * pageSize).toNat).take pageSize.toNat := by
    rw [GetNotesWithPagination_eq_window r s page pageSize hr]
    have hfresh : r.DB.getInstance.Statement.LIMIT = none := by
      rw [getInstance_of_clone_one _ hr]; rfl
    have hL := Paginate_LIMIT page pageSize r.DB
    rw [hps, hoff, hfresh] at hL
    unfold window
    rw [hL]
    have hpos0 : 0 ≤ pageSize := by omega
    by_cases h0 : 0 < (page - 1) * pageSize
    · simp [h0, hpos0]
    · have : (page - 1) * pageSize = 0 := by omega
      simp [this, hpos0]
  refine ⟨hst, hval, ?_⟩
  rw [hval]
  exact List.length_take_le _ _

/-- C1 amended, at page 2 with page size 1 on the demonstration store: the
second visible note. -/
theorem C1_pagination_window_witness :
    (demoRepo.GetNotesWithPagination demoStore 2 1).val =
      ((demoRepo.GetNotes demoStore).val.drop 1).take 1 :=
  (C1_pagination_window demoRepo demoStore 2 1 rfl (by decide) (by decide) (by decide)
    (by decide)).2.1

/-- C3, the code at the failing input: with two visible notes tagged `x`,
`GetNotesByTag("x", 1, 1)` returns both, and so does `GetNotesByTag("x", 2, 1)`:
no offset and no limit is applied. -/
theorem C3_GetNotesByTag_ignores_page :
    (demoRepo.GetNotesByTag demoStore "x" 1 1).val = [⟨1, "a", []⟩, ⟨3, "c", []⟩] ∧
    (demoRepo.GetNotesByTag demoStore "x" 2 1).val = [⟨1, "a", []⟩, ⟨3, "c", []⟩] := by
  decide

/-- C4, the code at the failing input: on a handle as `gorm.Open` returns it and
a database whose next statement fails with `connection refused`, the handle
returned by `Create` carries that error, and every method of the repository
returns a nil error. -/
theorem C4_storage_error_dropped :
    (demoRepo.DB.Create failingStore ⟨0, "n", []⟩).tx.Error = some "connection refused" ∧
    (demoRepo.CreateNote failingStore ⟨0, "n", []⟩).err = none ∧
    (demoRepo.UpdateNoteById failingStore ⟨1, "n", []⟩).err = none ∧
    (demoRepo.GetNotes failingStore).err = none ∧
    (demoRepo.GetNotesWithPagination failingStore 1 10).err = none ∧
    (demoRepo.GetNotesByTag failingStore "x" 1 10).err = none ∧
    (demoRepo.GetNoteById failingStore 1).err = none ∧
    (demoRepo.DeleteNoteById failingStore 1).err = none ∧
    (demoRepo.DeleteAllNotes failingStore).err = none ∧
    (demoRepo.GetTagsByName failingStore "x").err = none ∧
    (demoRepo.GetAllTags failingStore).err = none := by
  decide

/-- C5: on a handle as `gorm.Open` returns it, without error, `GetNoteById` of
an identifier that no visible note has returns the zero-value note and a nil
error. -/
theorem C5_GetNoteById_missing (r : RepositoryImpl) (s : Store) (id : Int)
    (hr : r.DB.clone = 1) (herr : r.DB.Error = none)
    (hmiss : ∀ n ∈ s.notes, n.Deleted = false → (n.ID : Int) ≠ id) :
    (r.GetNoteById s id).val = Note.zero ∧ (r.GetNoteById s id).err = none := by
  obtain ⟨⟨e, c, st⟩⟩ := r
  simp only at hr herr
  subst hr herr
  cases hp : s.peek with
  | some e1 =>
    simp [RepositoryImpl.GetNoteById, DB.First, DB.Where, DB.Preload, DB.Limit, DB.getInstance,
      DB.after, hp]
  | none =>
    have hsel : selectNotes
        ⟨false, [], [Cond.notesIdEq id], false, true, true, some ⟨some 1, 0⟩⟩ s = [] := by
      have hbase : ((s.notes.map fun n => (⟨n, none, none⟩ : Row)).filter
          fun r => decide ((r.note.ID : Int) = id)).filter (fun r => !r.note.Deleted) = [] := by
        simp only [List.filter_filter, List.filter_eq_nil_iff, List.mem_map]
        rintro _ ⟨n, hn, rfl⟩
        have := hmiss n hn
        cases hd : n.Deleted <;> simp_all
      simp [selectNotes, Cond.holds, window, hbase]
    simp [RepositoryImpl.GetNoteById, DB.First, DB.Where, DB.Preload, DB.Limit, DB.getInstance,
      DB.after, hp, Statement.empty, LimitClause.MergeClause, hsel]

/-- C5 on the demonstration store: note 2 is soft-deleted, so it is not
visible, and `GetNoteById(2)` returns the zero-value note and nil. -/
theorem C5_GetNoteById_missing_witness :
    (demoRepo.GetNoteById demoStore 2).val = Note.zero ∧
      (demoRepo.GetNoteById demoStore 2).err = none :=
  C5_GetNoteById_missing demoRepo demoStore 2 rfl rfl (by decide)

theorem delete_chain (db : DB) :
    ∃ st : Statement, (db.Unscoped).Where Cond.always = ⟨db.Error, 0, st⟩ ∧
      st.Conds.isEmpty = false ∧ st.Unscoped = true := by
  refine ⟨((db.Unscoped).Where Cond.always).Statement, ?_, ?_, ?_⟩
  · have hE : ((db.Unscoped).Where Cond.always).Error = db.Error := by
      simp [DB.Where, DB.Unscoped, getInstance_error]
    have hC : ((db.Unscoped).Where Cond.always).clone = 0 := by
      simp [DB.Where, getInstance_clone]
    rw [← hE, ← hC]
  · simp [DB.Where]
  · simp only [DB.Where, DB.Unscoped]
    rw [getInstance_of_clone_zero]
    exact getInstance_clone db

theorem DeleteNotes_failed (st : Statement) (s : Store) (e : Err)
    (hst : st.Conds.isEmpty = false) (hp : s.peek = some e) :
    ((⟨none, 0, st⟩ : DB).DeleteNotes s).store = s.send Op.deleteNotes := by
  simp [DB.DeleteNotes, DB.getInstance, hst, hp]

theorem DeleteTags_store (st : Statement) (s : Store) (hst : st.Conds.isEmpty = false) :
    ((⟨none, 0, st⟩ : DB).DeleteTags s).store.notes = s.notes ∧
    ((⟨none, 0, st⟩ : DB).DeleteTags s).store.issued = s.issued ++ [Op.deleteTags] := by
  cases hp : s.peek <;> simp [DB.DeleteTags, DB.getInstance, hst, hp, Store.send]

theorem after_of_clone_pos (r tx : DB) (h : 0 < r.clone) : r.after tx = r := by
  have h0 : r.clone ≠ 0 := by omega
  simp [DB.after, h0]

/-- C10: when the injected handle gives a new handle to every chain of calls
(`clone > 0`), every method leaves it as it was and returns its `Error` field,
whatever the database does with the statement; and when that field is nil and
the first delete of `DeleteAllNotes` fails in the driver, the notes stay and the
delete on `tags` is sent all the same. -/
theorem C10_returns_injected_handle_error (r : RepositoryImpl) (s : Store)
    (h : 0 < r.DB.clone) :
    (∀ note, (r.CreateNote s note).err = r.DB.Error ∧ (r.CreateNote s note).r = r) ∧
    (∀ note, (r.UpdateNoteById s note).err = r.DB.Error ∧ (r.UpdateNoteById s note).r = r) ∧
    ((r.GetNotes s).err = r.DB.Error ∧ (r.GetNotes s).r = r) ∧
    (∀ page pageSize, (r.GetNotesWithPagination s page pageSize).err = r.DB.Error ∧
      (r.GetNotesWithPagination s page pageSize).r = r) ∧
    (∀ tag page pageSize, (r.GetNotesByTag s tag page pageSize).err = r.DB.Error ∧
      (r.GetNotesByTag s tag page pageSize).r = r) ∧
    (∀ id, (r.GetNoteById s id).err = r.DB.Error ∧ (r.GetNoteById s id).r = r) ∧
    (∀ id, (r.DeleteNoteById s id).err = r.DB.Error ∧ (r.DeleteNoteById s id).r = r) ∧
    ((r.DeleteAllNotes s).err = r.DB.Error ∧ (r.DeleteAllNotes s).r = r) ∧
    (∀ tag, (r.GetTagsByName s tag).err = r.DB.Error ∧ (r.GetTagsByName s tag).r = r) ∧
    ((r.GetAllTags s).err = r.DB.Error ∧ (r.GetAllTags s).r = r) ∧
    (r.DB.Error = none → ∀ e, s.peek = some e →
      (r.DeleteAllNotes s).store.notes = s.notes ∧
      (r.DeleteAllNotes s).store.issued = s.issued ++ [Op.deleteNotes, Op.deleteTags]) := by
  have ha : ∀ tx : DB, r.DB.after tx = r.DB := fun tx => after_of_clone_pos r.DB tx h
  refine ⟨?_, ?_, ?_, ?_, ?_, ?_, ?_, ?_, ?_, ?_, ?_⟩
  · intro note; simp [RepositoryImpl.CreateNote, ha]
  · intro note; simp [RepositoryImpl.UpdateNoteById, ha]
  · simp [RepositoryImpl.GetNotes, ha]
  · intro page pageSize; simp [RepositoryImpl.GetNotesWithPagination, ha]
  · intro tag page pageSize; simp [RepositoryImpl.GetNotesByTag, ha]
  · intro id; simp [RepositoryImpl.GetNoteById, ha]
  · intro id; simp [RepositoryImpl.DeleteNoteById, ha]
  · simp [RepositoryImpl.DeleteAllNotes, ha]
  · intro tag; simp [RepositoryImpl.GetTagsByName, ha]
  · simp [RepositoryImpl.GetAllTags, ha]
  · intro herr e hp
    obtain ⟨st, hch, hst, _⟩ := delete_chain r.DB
    rw [herr] at hch
    have h2 := DeleteTags_store st (s.send Op.deleteNotes) hst
    simp only [RepositoryImpl.DeleteAllNotes, ha, hch, DeleteNotes_failed st s e hst hp]
    simpa [Store.send] using h2

/-- C10 on the failing store: `DeleteAllNotes` returns the nil error of the
injected handle although its first delete failed, the notes are still there and
both deletes were sent. -/
theorem C10_returns_injected_handle_error_witness :
    (demoRepo.DeleteAllNotes failingStore).err = none ∧
    (demoRepo.DeleteAllNotes failingStore).store.notes = failingStore.notes ∧
    (demoRepo.DeleteAllNotes failingStore).store.issued = [Op.deleteNotes, Op.deleteTags] :=
  ⟨(C10_returns_injected_handle_error demoRepo failingStore (by decide)).2.2.2.2.2.2.2.1.1,
   ((C10_returns_injected_handle_error demoRepo failingStore (by decide)).2.2.2.2.2.2.2.2.2.2
      rfl "connection refused" rfl).1,
   ((C10_returns_injected_handle_error demoRepo failingStore (by decide)).2.2.2.2.2.2.2.2.2.2
      rfl "connection refused" rfl).2⟩

theorem GetNotes_of_no_notes (r : RepositoryImpl) (s : Store) (hr : r.DB.clone = 1)
    (h : s.notes = []) : (r.GetNotes s).val = [] := by
  cases he : r.DB.Error <;> cases hp : s.peek <;>
    simp [RepositoryImpl.GetNotes, DB.FindNotes, DB.getInstance, hr, he, hp, h, selectNotes,
      Statement.empty, window]

theorem GetNotes_store_tags (r : RepositoryImpl) (s : Store) :
    (r.GetNotes s).store.tags = s.tags := by
  cases he : r.DB.getInstance.Error <;> cases hp : s.peek <;>
    simp [RepositoryImpl.GetNotes, DB.FindNotes, he, hp, Store.send]

theorem GetAllTags_of_no_tags (r : RepositoryImpl) (s : Store) (hr : r.DB.clone = 1)
    (h : s.tags = []) : (r.GetAllTags s).val = [] := by
  cases he : r.DB.Error <;> cases hp : s.peek <;>
    simp [RepositoryImpl.GetAllTags, DB.FindTags, DB.getInstance, hr, he, hp, h, selectTags,
      Statement.empty, window]

/-- C8: on a handle as `gorm.Open` returns it, without error, when the driver
fails neither of the two deletes, `DeleteAllNotes` leaves no row in `notes`
(soft-deleted rows included) and no row in `tags`, and `GetNotes` and
`GetAllTags` after it return empty sequences. -/
theorem C8_DeleteAllNotes_empties (r : RepositoryImpl) (s : Store)
    (hr : r.DB.clone = 1) (herr : r.DB.Error = none)
    (hok : ∀ f ∈ s.faults.take 2, f = none) :
    (r.DeleteAllNotes s).store.notes = [] ∧
    (r.DeleteAllNotes s).store.tags = [] ∧
    ((r.DeleteAllNotes s).r.GetNotes (r.DeleteAllNotes s).store).val = [] ∧
    ((r.DeleteAllNotes s).r.GetAllTags (r.DeleteAllNotes s).store).val = [] ∧
    ((r.DeleteAllNotes s).r.GetAllTags
      ((r.DeleteAllNotes s).r.GetNotes (r.DeleteAllNotes s).store).store).val = [] := by
  have hdel : (r.DeleteAllNotes s).store.notes = [] ∧ (r.DeleteAllNotes s).store.tags = [] ∧
      (r.DeleteAllNotes s).r = r := by
    obtain ⟨⟨e, c, st⟩⟩ := r
    simp only at hr herr
    subst hr herr
    obtain ⟨n, t, j, f, i⟩ := s
    simp only at hok
    have hf : f = [] ∨ f = [none] ∨ ∃ l, f = none :: none :: l := by
      cases f with
      | nil => exact Or.inl rfl
      | cons a l =>
        have ha : a = none := hok a (by simp)
        cases l with
        | nil => exact Or.inr (Or.inl (by rw [ha]))
        | cons b l2 =>
          have hb : b = none := hok b (by simp)
          exact Or.inr (Or.inr ⟨l2, by rw [ha, hb]⟩)
    rcases hf with rfl | rfl | ⟨l, rfl⟩ <;>
      simp [RepositoryImpl.DeleteAllNotes, DB.DeleteNotes, DB.DeleteTags, DB.Unscoped, DB.Where,
        DB.getInstance, DB.after, Store.peek, Store.send, Statement.empty, Cond.holds,
        Cond.holdsTag]
  obtain ⟨hn, ht, hrr⟩ := hdel
  have hr2 : (r.DeleteAllNotes s).r.DB.clone = 1 := by rw [hrr]; exact hr
  refine ⟨hn, ht, GetNotes_of_no_notes _ _ hr2 hn, GetAllTags_of_no_tags _ _ hr2 ht, ?_⟩
  apply GetAllTags_of_no_tags _ _ hr2
  rw [GetNotes_store_tags]
  exact ht

/-- C8 on the demonstration store, which has a soft-deleted note. -/
theorem C8_DeleteAllNotes_empties_witness :
    (demoRepo.DeleteAllNotes demoStore).store.notes = [] ∧
    (demoRepo.DeleteAllNotes demoStore).store.tags = [] ∧
    (demoRepo.GetNotes (demoRepo.DeleteAllNotes demoStore).store).val = [] ∧
    (demoRepo.GetAllTags (demoRepo.DeleteAllNotes demoStore).store).val = [] :=
  have h := C8_DeleteAllNotes_empties demoRepo demoStore rfl rfl (by decide)
  ⟨h.1, h.2.1, h.2.2.1, h.2.2.2.1⟩

/-! ## The tag lookup -/

/-- The step of `groupByID`. -/
theorem groupByID_eq (rows : List NoteRow) :
    groupByID rows = rows.foldl
      (fun acc n => if acc.any (fun m => decide (m.ID = n.ID)) then acc else acc ++ [n]) [] := rfl

theorem groupFold_mem (rows acc : List NoteRow) (x : NoteRow)
    (h : x ∈ rows.foldl
      (fun acc n => if acc.any (fun m => decide (m.ID = n.ID)) then acc else acc ++ [n]) acc) :
    x ∈ acc ∨ x ∈ rows := by
  induction rows generalizing acc with
  | nil => exact Or.inl h
  | cons n ns ih =>
    simp only [List.foldl_cons] at h
    rcases ih _ h with h1 | h1
    · split_ifs at h1
      · exact Or.inl h1
      · rcases List.mem_append.1 h1 with h2 | h2
        · exact Or.inl h2
        · exact Or.inr (by simp_all)
    · exact Or.inr (List.mem_cons_of_mem _ h1)

theorem groupFold_cover (rows acc : List NoteRow) (k : Nat)
    (h : (∃ m ∈ acc, m.ID = k) ∨ ∃ m ∈ rows, m.ID = k) :
    ∃ m ∈ rows.foldl
      (fun acc n => if acc.any (fun m => decide (m.ID = n.ID)) then acc else acc ++ [n]) acc,
      m.ID = k := by
  induction rows generalizing acc with
  | nil =>
    rcases h with h | ⟨m, hm, _⟩
    · exact h
    · cases hm
  | cons n ns ih =>
    simp only [List.foldl_cons]
    apply ih
    rcases h with ⟨m, hm, hk⟩ | ⟨m, hm, hk⟩
    · left
      refine ⟨m, ?_, hk⟩
      split_ifs
      · exact hm
      · exact List.mem_append_left _ hm
    · rcases List.mem_cons.1 hm with rfl | h2
      · left
        split_ifs with hany
        · obtain ⟨m2, hm2, heq⟩ := List.any_eq_true.1 hany
          exact ⟨m2, hm2, by rw [← hk]; simpa using heq⟩
        · exact ⟨m, by simp, hk⟩
      · exact Or.inr ⟨m, h2, hk⟩

theorem groupFold_nodup (rows acc : List NoteRow) (h : (acc.map fun n => n.ID).Nodup) :
    ((rows.foldl
      (fun acc n => if acc.any (fun m => decide (m.ID = n.ID)) then acc else acc ++ [n])
      acc).map fun n => n.ID).Nodup := by
  induction rows generalizing acc with
  | nil => exact h
  | cons n ns ih =>
    simp only [List.foldl_cons]
    apply ih
    split_ifs with hany
    · exact h
    · rw [List.map_append, List.nodup_append]
      refine ⟨h, by simp, ?_⟩
      intro k hk1 hk2
      apply hany
      obtain ⟨m, hm, rfl⟩ := List.mem_map.1 hk1
      have hk : m.ID = n.ID := by simpa using hk2
      exact List.any_eq_true.2 ⟨m, hm, by simpa using hk⟩

theorem groupByID_mem (rows : List NoteRow) (x : NoteRow) (h : x ∈ groupByID rows) :
    x ∈ rows := by
  rcases groupFold_mem rows [] x h with h1 | h1
  · cases h1
  · exact h1

theorem groupByID_cover (rows : List NoteRow) (x : NoteRow) (h : x ∈ rows) :
    ∃ m ∈ groupByID rows, m.ID = x.ID :=
  groupFold_cover rows [] x.ID (Or.inr ⟨x, h, rfl⟩)

theorem groupByID_nodup (rows : List NoteRow) : ((groupByID rows).map fun n => n.ID).Nodup :=
  groupFold_nodup rows [] (by simp)

/-- The rows of `notes` in the join of the three tables that carry the tag and
are not soft-deleted. -/
theorem joined_mem (s : Store) (tag : String) (n : NoteRow) :
    n ∈ (((Join.tags.apply s (Join.noteTags.apply s
        (s.notes.map fun n => (⟨n, none, none⟩ : Row)))).filter
          fun r => [Cond.tagsNameEq tag].all fun c => c.holds r).filter
            fun r => !r.note.Deleted).map (fun r => r.note) ↔
      n ∈ s.notes ∧ n.Deleted = false ∧ (n.ID, tag) ∈ s.note_tags ∧ (⟨tag⟩ : Tag) ∈ s.tags := by
  simp only [Join.apply, List.mem_map, List.mem_filter, List.mem_flatMap]
  constructor
  · rintro ⟨r, ⟨⟨⟨r1, ⟨r0, ⟨n0, hn0, rfl⟩, hr1⟩, hr⟩, hc⟩, hd⟩, rfl⟩
    obtain ⟨j, hj, rfl⟩ := hr1
    obtain ⟨hj1, hj2⟩ := hj
    simp only [List.mem_map, List.mem_filter] at hr
    obtain ⟨g, ⟨hg, hgn⟩, rfl⟩ := hr
    simp only [List.all_cons, List.all_nil, Bool.and_true, Cond.holds] at hc
    simp only [decide_eq_true_eq] at hc hgn hj2
    simp only [Bool.not_eq_true'] at hd
    obtain ⟨j1, j2⟩ := j
    obtain ⟨gn⟩ := g
    simp only at hc hgn hj2
    subst hc hj2
    subst hgn
    exact ⟨hn0, hd, hj1, hg⟩
  · rintro ⟨hn, hd, hj, ht⟩
    refine ⟨⟨n, some (n.ID, tag), some ⟨tag⟩⟩, ⟨⟨⟨⟨n, some (n.ID, tag), none⟩,
      ⟨⟨n, none, none⟩, ⟨n, hn, rfl⟩, ?_⟩, ?_⟩, ?_⟩, ?_⟩, rfl⟩
    · exact ⟨(n.ID, tag), ⟨hj, by simp⟩, rfl⟩
    · simp only [List.mem_map, List.mem_filter]
      exact ⟨⟨tag⟩, ⟨ht, by simp⟩, rfl⟩
    · simp [Cond.holds]
    · simp [hd]

/-- C6: on a handle as `gorm.Open` returns it, without error, when the driver
does not fail the query and the identifiers of table `notes` are distinct (it
is the primary key), `GetNotesByTag(x, page, pageSize)` returns exactly the
notes that are not soft-deleted and have a row `(id, x)` in `note_tags` with `x`
in `tags`: each of them and nothing else, and no identifier twice. -/
theorem C6_GetNotesByTag_exact (r : RepositoryImpl) (s : Store) (tag : String)
    (page pageSize : Int) (hr : r.DB.clone = 1) (herr : r.DB.Error = none)
    (hp : s.peek = none) (hpk : (s.notes.map fun n => n.ID).Nodup) :
    (∀ n : Note, n ∈ (r.GetNotesByTag s tag page pageSize).val ↔
      ∃ row ∈ s.notes, row.Deleted = false ∧ (row.ID, tag) ∈ s.note_tags ∧
        (⟨tag⟩ : Tag) ∈ s.tags ∧ n = row.toNote []) ∧
    ((r.GetNotesByTag s tag page pageSize).val.map fun n => n.ID).Nodup := by
  obtain ⟨⟨e, c, st⟩⟩ := r
  simp only at hr herr
  subst hr herr
  have hval : ((⟨⟨none, 1, st⟩⟩ : RepositoryImpl).GetNotesByTag s tag page pageSize).val =
      (groupByID ((((Join.tags.apply s (Join.noteTags.apply s
        (s.notes.map fun n => (⟨n, none, none⟩ : Row)))).filter
          fun r => [Cond.tagsNameEq tag].all fun c => c.holds r).filter
            fun r => !r.note.Deleted).map (fun r => r.note))).map fun n => n.toNote [] := by
    simp [RepositoryImpl.GetNotesByTag, DB.FindNotes, DB.Joins, DB.Where, DB.Group,
      DB.getInstance, hp, selectNotes, Statement.empty, window, loadNote, Function.comp_def]
  rw [hval]
  constructor
  · intro n
    rw [List.mem_map]
    constructor
    · rintro ⟨row, hrow, rfl⟩
      have h1 := groupByID_mem _ _ hrow
      rw [joined_mem] at h1
      exact ⟨row, h1.1, h1.2.1, h1.2.2.1, h1.2.2.2, rfl⟩
    · rintro ⟨row, hrow, hd, hj, ht, rfl⟩
      have h1 := (joined_mem s tag row).2 ⟨hrow, hd, hj, ht⟩
      obtain ⟨m, hm, hid⟩ := groupByID_cover _ _ h1
      have hm2 := (joined_mem s tag m).1 (groupByID_mem _ _ hm)
      have : m = row := List.inj_on_of_nodup_map hpk hm2.1 hrow hid
      subst this
      exact ⟨m, hm, rfl⟩
  · rw [List.map_map]
    exact groupByID_nodup _

/-- C6 on the demonstration store: notes 1 and 3 carry tag `x` and are visible,
note 2 carries it but is soft-deleted. -/
theorem C6_GetNotesByTag_exact_witness :
    (⟨3, "c", []⟩ : Note) ∈ (demoRepo.GetNotesByTag demoStore "x" 1 1).val ∧
    (⟨2, "b", []⟩ : Note) ∉ (demoRepo.GetNotesByTag demoStore "x" 1 1).val ∧
    ((demoRepo.GetNotesByTag demoStore "x" 1 1).val.map fun n => n.ID).Nodup :=
  have h := C6_GetNotesByTag_exact demoRepo demoStore "x" 1 1 rfl rfl rfl (by decide)
  ⟨(h.1 _).2 ⟨⟨3, "c", false⟩, by decide, rfl, by decide, by decide, rfl⟩,
   (fun hmem => by
     obtain ⟨row, hrow, hd, _, _, heq⟩ := (h.1 _).1 hmem
     have hid : row.ID = 2 := by
       have := congrArg Note.ID heq
       simpa [NoteRow.toNote] using this.symm
     have hall : ∀ x ∈ demoStore.notes, x.ID = 2 → x.Deleted = true := by decide
     rw [hall row hrow hid] at hd
     cases hd),
   h.2⟩

/-! ## Create, then read -/

theorem mem_insertIgnore {α : Type} [DecidableEq α] (table rows : List α) (x : α) :
    x ∈ insertIgnore table rows ↔ x ∈ table ∨ x ∈ rows := by
  unfold insertIgnore
  induction rows generalizing table with
  | nil => simp
  | cons a l ih =>
    simp only [List.foldl_cons]
    rw [ih]
    split_ifs with h
    · constructor
      · rintro (h1 | h1)
        · exact Or.inl h1
        · exact Or.inr (List.mem_cons_of_mem _ h1)
      · rintro (h1 | h1)
        · exact Or.inl h1
        · rcases List.mem_cons.1 h1 with rfl | h2
          · exact Or.inl h
          · exact Or.inr h2
    · simp only [List.mem_append, List.mem_singleton, List.mem_cons]
      tauto

theorem le_foldr_max (l : List Nat) (k : Nat) (h : k ∈ l) : k ≤ l.foldr max 0 := by
  induction l with
  | nil => cases h
  | cons a l ih =>
    simp only [List.foldr_cons]
    rcases List.mem_cons.1 h with rfl | h2
    · exact le_max_left _ _
    · exact le_trans (ih h2) (le_max_right _ _)

theorem freshID_not_mem (s : Store) : freshID s ∉ s.notes.map fun n => n.ID := by
  intro h
  have := le_foldr_max _ _ h
  unfold freshID at this
  omega

/-- What a `Create` that reports no error did, on a handle as `gorm.Open`
returns it: the new row has an identifier no row had, and the tables grew by
the row, the missing tags and the missing associations. -/
theorem Create_succeeded (db : DB) (s : Store) (note : Note) (hc : db.clone = 1)
    (hok : (db.Create s note).tx.Error = none) :
    ∃ id : Nat, id ∉ (s.notes.map fun n => n.ID) ∧
      (db.Create s note).out = { note with ID := id } ∧
      (db.Create s note).store.notes = s.notes ++ [⟨id, note.Content, false⟩] ∧
      (db.Create s note).store.tags = insertIgnore s.tags note.Tags ∧
      (db.Create s note).store.note_tags =
        insertIgnore s.note_tags (note.Tags.map fun g => (id, g.Name)) := by
  obtain ⟨e, c, st⟩ := db
  simp only at hc
  subst hc
  cases e with
  | some e0 =>
    simp [DB.Create, DB.getInstance] at hok
  | none =>
    cases hp : s.peek with
    | some e1 =>
      simp [DB.Create, DB.getInstance, hp, DB.AddError] at hok
    | none =>
      by_cases hdup : note.ID ≠ 0 ∧ note.ID ∈ s.notes.map (fun n => n.ID)
      · simp [DB.Create, DB.getInstance, hp, DB.AddError, hdup] at hok
      · refine ⟨if note.ID = 0 then freshID s else note.ID, ?_, ?_⟩
        · split_ifs with h0
          · exact freshID_not_mem s
          · intro hmem
            exact hdup ⟨h0, hmem⟩
        · simp only [DB.Create, DB.getInstance, hp, hdup]
          simp

/-- Reading back the last row of `notes`, when it is visible and no other row
has its identifier. -/
theorem GetNoteById_last (r : RepositoryImpl) (s : Store) (old : List NoteRow) (new : NoteRow)
    (hr : r.DB.clone = 1) (herr : r.DB.Error = none) (hp : s.peek = none)
    (hs : s.notes = old ++ [new]) (hnew : new.ID ∉ old.map fun n => n.ID)
    (hvis : new.Deleted = false) :
    (r.GetNoteById s (new.ID : Int)).val = new.toNote (preloadTags s new) := by
  obtain ⟨⟨e, c, st⟩⟩ := r
  simp only at hr herr
  subst hr herr
  have hold : ((old.map fun n => (⟨n, none, none⟩ : Row)).filter
      fun a => !a.note.Deleted && decide (a.note.ID = new.ID)) = [] := by
    simp only [List.filter_eq_nil_iff, List.mem_map]
    rintro _ ⟨n, hn, rfl⟩
    simp only [Bool.and_eq_true, decide_eq_true_eq, not_and]
    intro _ heq
    exact hnew (List.mem_map.2 ⟨n, hn, heq⟩)
  have hsel : selectNotes ⟨false, [], [Cond.notesIdEq (new.ID : Int)], false, true, true,
      some ⟨some 1, 0⟩⟩ s = [new] := by
    simp [selectNotes, Cond.holds, window, hs, List.filter_append, hold, hvis]
  simp [RepositoryImpl.GetNoteById, DB.First, DB.Where, DB.Preload, DB.Limit, DB.getInstance, hp,
    Statement.empty, LimitClause.MergeClause, hsel, loadNote]

/-- C7, the claim as stated fails on a database that holds join rows of removed
notes, as `DeleteAllNotes` leaves them: after `DeleteAllNotes` and the creation
of a note tagged `x`, a note without tags created with identifier 3 (its insert
reports no error and `CreateNote` returns nil) is read back with the tag `x`,
and so is a note without tags that gets the generated identifier 2. -/
theorem C7_counterexample :
    staleStore.notes = [⟨1, "a", false⟩] ∧ staleStore.tags = [⟨"x"⟩] ∧
    staleStore.note_tags = [(1, "x"), (3, "x"), (3, "y"), (2, "x")] ∧
    (demoRepo.DB.Create staleStore ⟨3, "n", []⟩).tx.Error = none ∧
    (demoRepo.CreateNote staleStore ⟨3, "n", []⟩).err = none ∧
    (demoRepo.CreateNote staleStore ⟨3, "n", []⟩).val = ⟨3, "n", []⟩ ∧
    ((demoRepo.CreateNote staleStore ⟨3, "n", []⟩).r.GetNoteById
      (demoRepo.CreateNote staleStore ⟨3, "n", []⟩).store 3).val = ⟨3, "n", [⟨"x"⟩]⟩ ∧
    (demoRepo.DB.Create staleStore ⟨0, "n", []⟩).tx.Error = none ∧
    (demoRepo.CreateNote staleStore ⟨0, "n", []⟩).err = none ∧
    (demoRepo.CreateNote staleStore ⟨0, "n", []⟩).val = ⟨2, "n", []⟩ ∧
    ((demoRepo.CreateNote staleStore ⟨0, "n", []⟩).r.GetNoteById
      (demoRepo.CreateNote staleStore ⟨0, "n", []⟩).store 2).val = ⟨2, "n", [⟨"x"⟩]⟩ := by
  decide

/-- C7, amended: on a handle as `gorm.Open` returns it, without error, when the
`Create` of `CreateNote(n)` reports no error, no row of the join table carried
the returned identifier before the call, that identifier converts to `int`
unchanged and the driver does not fail the read, `GetNoteById` of the returned
identifier gives a note with that identifier, the content of `n` and the tag
set of `n`. -/
theorem C7_create_then_get (r : RepositoryImpl) (s : Store) (note : Note)
    (hr : r.DB.clone = 1) (herr : r.DB.Error = none)
    (hok : (r.DB.Create s note).tx.Error = none)
    (hstale : ∀ j ∈ s.note_tags, j.1 ≠ (r.CreateNote s note).val.ID)
    (hid : ((r.CreateNote s note).val.ID : Int) < 2 ^ 63)
    (hread : (r.CreateNote s note).store.peek = none) :
    ((r.CreateNote s note).r.GetNoteById (r.CreateNote s note).store
        (wrapInt ((r.CreateNote s note).val.ID : Int))).val.ID = (r.CreateNote s note).val.ID ∧
    ((r.CreateNote s note).r.GetNoteById (r.CreateNote s note).store
        (wrapInt ((r.CreateNote s note).val.ID : Int))).val.Content = note.Content ∧
    ∀ g : Tag, g ∈ ((r.CreateNote s note).r.GetNoteById (r.CreateNote s note).store
        (wrapInt ((r.CreateNote s note).val.ID : Int))).val.Tags ↔ g ∈ note.Tags := by
  obtain ⟨id, hfresh, hout, hnotes, htags, hjoin⟩ := Create_succeeded r.DB s note hr hok
  have hr1 : (r.CreateNote s note).r = r := by
    simp [RepositoryImpl.CreateNote, after_of_clone_pos r.DB _ (by omega)]
  have hval : (r.CreateNote s note).val = { note with ID := id } := hout
  have hstore : (r.CreateNote s note).store = (r.DB.Create s note).store := rfl
  rw [hval] at hid hstale ⊢
  rw [hr1]
  simp only at hid hstale ⊢
  rw [wrapInt_of_range (id : Int) (by omega) hid]
  have hget := GetNoteById_last r (r.CreateNote s note).store s.notes ⟨id, note.Content, false⟩
    hr herr hread (by rw [hstore, hnotes]) hfresh rfl
  simp only at hget
  rw [hget]
  refine ⟨rfl, rfl, ?_⟩
  intro g
  simp only [NoteRow.toNote, preloadTags, List.mem_filter, decide_eq_true_eq, hstore, htags,
    hjoin, mem_insertIgnore, List.mem_map, Prod.mk.injEq]
  constructor
  · rintro ⟨_, h2 | ⟨g2, hg2, _, hname⟩⟩
    · exact absurd rfl (hstale _ h2)
    · obtain ⟨n2⟩ := g2
      obtain ⟨n1⟩ := g
      simp only at hname
      subst hname
      exact hg2
  · intro hg
    exact ⟨Or.inr hg, Or.inr ⟨g, hg, trivial, rfl⟩⟩

/-- C7 amended, on the demonstration store: a note with the tags `z` and `x`
gets the identifier 4, which no join row carries, and is read back with its
content and both tags. -/
theorem C7_create_then_get_witness :
    ((demoRepo.CreateNote demoStore ⟨0, "n", [⟨"z"⟩, ⟨"x"⟩]⟩).r.GetNoteById
        (demoRepo.CreateNote demoStore ⟨0, "n", [⟨"z"⟩, ⟨"x"⟩]⟩).store
        (wrapInt ((demoRepo.CreateNote demoStore ⟨0, "n", [⟨"z"⟩, ⟨"x"⟩]⟩).val.ID : Int))).val.Content
      = "n" ∧
    ∀ g : Tag, g ∈ ((demoRepo.CreateNote demoStore ⟨0, "n", [⟨"z"⟩, ⟨"x"⟩]⟩).r.GetNoteById
        (demoRepo.CreateNote demoStore ⟨0, "n", [⟨"z"⟩, ⟨"x"⟩]⟩).store
        (wrapInt ((demoRepo.CreateNote demoStore ⟨0, "n", [⟨"z"⟩, ⟨"x"⟩]⟩).val.ID : Int))).val.Tags ↔
      g ∈ [(⟨"z"⟩ : Tag), ⟨"x"⟩] :=
  (C7_create_then_get demoRepo demoStore ⟨0, "n", [⟨"z"⟩, ⟨"x"⟩]⟩ rfl rfl (by decide) (by decide)
    (by decide) (by decide)).2

end NoteRepo
